import Mathlib

/-!
Shallow embedding of the attendance tracking core of the repository:
the Meteor methods `people.checkIn` / `people.checkOut`
(src/communities/communities.js), the `people` publication
(src/server/publications.js) and the `renderActionButton` /
`getTimeDifferenceInSeconds` helpers of the PeopleList view
(src/ui/components/EventSelector.jsx).

Modelling choices:
* A MongoDB `Date` timestamp is a `Nat` (milliseconds since epoch where
  the granularity matters, an abstract instant otherwise); a nullable
  date field is an `Option Nat`.
* The People collection is a `List Person`; `_id` is the `id` field.
  `findOneAsync {_id: pid}` and `updateAsync {_id: pid} {$set: …}`
  operate on the first record whose id matches, mirroring Mongo's
  behaviour on the unique `_id` key.
* Mongo's `modifiedCount` counts matched documents actually changed by
  the `$set`, so a `$set` writing the already-stored values reports 0.
* A thrown `Meteor.Error(code, reason)` is `Except.error ⟨code, reason⟩`;
  the JS object returned on success is an association list of fields so
  that the presence or absence of a field (e.g. `timestamp`) is
  observable.
-/

/-- A Person document of the `people` collection (spec §3; fields used by
the code under src/). Timestamps are `Option Nat` (null = `none`). -/
structure Person where
  id : String
  communityId : String
  firstName : String
  lastName : String
  checkInDate : Option Nat
  checkOutDate : Option Nat
deriving DecidableEq, Repr

/-- A JavaScript value appearing in a method result object. -/
inductive JsVal where
  | vBool : Bool → JsVal
  | vStr : String → JsVal
  | vNum : Nat → JsVal
  | vNull : JsVal
deriving DecidableEq, Repr

/-- A JavaScript object, as the association list of its fields. -/
abbrev JsObj := List (String × JsVal)

/-- A `Meteor.Error(error, reason)` as thrown by the methods. -/
structure MeteorError where
  error : String
  reason : String
deriving DecidableEq, Repr

/-- The JS blank test `!s.trim()`: `String.prototype.trim` strips
leading and trailing whitespace, so the trimmed string is empty exactly
when every character of `s` is whitespace. -/
def isBlank (s : String) : Bool :=
  s.data.all Char.isWhitespace

/-- `People.findOneAsync({_id: pid})`: the first document whose `_id`
equals `pid`, or `none`. -/
def findOne (store : List Person) (pid : String) : Option Person :=
  store.find? (fun p => p.id = pid)

/-- `People.updateAsync({_id: pid}, {$set: …})`: apply `f` (the `$set`
patch) to the first document whose `_id` equals `pid`. Returns the new
collection and `modifiedCount`: 0 when no document matches or when the
patch leaves the matched document unchanged, 1 otherwise. -/
def updateById (store : List Person) (pid : String) (f : Person → Person) :
    List Person × Nat :=
  match store with
  | [] => ([], 0)
  | p :: rest =>
    if p.id = pid then
      (f p :: rest, if f p = p then 0 else 1)
    else
      let r := updateById rest pid f
      (p :: r.1, r.2)

/-- The `$set` patch of `people.checkIn`:
`{checkInDate: new Date(), checkOutDate: null}`. -/
def setCheckIn (now : Nat) (p : Person) : Person :=
  { p with checkInDate := some now, checkOutDate := none }

/-- The method `people.checkIn(personId)` (src/communities/communities.js).
Validates that `personId` is a non-blank string, then updates the
document keyed by `_id` alone, setting `checkInDate` to now and clearing
`checkOutDate`; a zero `modifiedCount` raises `person-not-found`.
Returns the method outcome and the collection after the call. (The
`typeof personId !== 'string'` guard is vacuous in the embedding since
`personId : String`.) -/
def checkIn (store : List Person) (personId : String) (now : Nat) :
    Except MeteorError JsObj × List Person :=
  if isBlank personId then
    (Except.error ⟨"invalid-argument", "O ID da pessoa não pode estar vazio."⟩, store)
  else
    let r := updateById store personId (setCheckIn now)
    if r.2 = 0 then
      (Except.error ⟨"person-not-found",
        "Pessoa não encontrada ou já com check-in realizado."⟩, r.1)
    else
      (Except.ok [("success", JsVal.vBool true),
                  ("message", JsVal.vStr "Check-in realizado com sucesso!")], r.1)

/-- The pre-check phase of `people.checkOut`: `findOneAsync` followed by
the three application-code checks. Returns the error it would throw, or
`none` when the checks pass. JS truthiness: a `Date` is always truthy
and `null` is falsy, so `!person.checkInDate` is `checkInDate = none`. -/
def checkOutPre (store : List Person) (personId : String) : Option MeteorError :=
  match findOne store personId with
  | none => some ⟨"person-not-found", "Pessoa não encontrada."⟩
  | some person =>
    if person.checkInDate = none then
      some ⟨"invalid-operation",
        "Não é possível fazer check-out sem ter feito check-in primeiro."⟩
    else if person.checkOutDate ≠ none then
      some ⟨"already-checked-out", "Esta pessoa já fez check-out."⟩
    else
      none

/-- The write phase of `people.checkOut`:
`People.updateAsync({_id: personId}, {$set: {checkOutDate: new Date()}})`.
The selector is `_id` alone — no condition on `checkInDate` or
`checkOutDate` — so it hits whatever is stored at the instant of the
write. -/
def checkOutWrite (store : List Person) (personId : String) (now : Nat) :
    List Person × Nat :=
  updateById store personId (fun p => { p with checkOutDate := some now })

/-- The method `people.checkOut(personId)` (src/communities/communities.js):
validation, then the pre-check read, then the unconditional write; a zero
`modifiedCount` raises `update-failed`. Returns the method outcome and
the collection after the call. -/
def checkOut (store : List Person) (personId : String) (now : Nat) :
    Except MeteorError JsObj × List Person :=
  if isBlank personId then
    (Except.error ⟨"invalid-argument", "O ID da pessoa não pode estar vazio."⟩, store)
  else
    match checkOutPre store personId with
    | some e => (Except.error e, store)
    | none =>
      let r := checkOutWrite store personId now
      if r.2 = 0 then
        (Except.error ⟨"update-failed", "Falha ao atualizar os dados da pessoa."⟩, r.1)
      else
        (Except.ok [("success", JsVal.vBool true),
                    ("message", JsVal.vStr "Check-out realizado com sucesso!")], r.1)

/-- The argument a client passes to `Meteor.subscribe('people', arg)`:
absent, `null`, a string, or a number (the shapes the spec's test cases
exercise). -/
inductive PubArg where
  | missing
  | nullv
  | str : String → PubArg
  | num : Nat → PubArg
deriving DecidableEq, Repr

/-- JS truthiness of a publication argument: `undefined`, `null`, `""`
and `0` are falsy. -/
def pubArgFalsy : PubArg → Bool
  | PubArg.missing => true
  | PubArg.nullv => true
  | PubArg.str s => s = ""
  | PubArg.num n => n = 0

/-- The `people` publication (src/server/publications.js; the file
registers it twice, lines 34-56 and 119-142, with identical validation
and filtering — one returns nothing after `this.ready()`, the other
returns `[]`; both deliver an immediately-ready empty set, modelled as
`[]`). A falsy, non-string or blank `communityId` yields the empty set
before any collection access; otherwise the result is
`People.find({communityId})`. -/
def peoplePublish (store : List Person) (arg : PubArg) : List Person :=
  if pubArgFalsy arg then []
  else
    match arg with
    | PubArg.str s =>
      if isBlank s then []
      else store.filter (fun p => p.communityId = s)
    | _ => []

/-- `getTimeDifferenceInSeconds(date)` (src/ui/components/EventSelector.jsx):
0 when `date` is not a `Date`; otherwise `Math.floor((new Date() - date) / 1000)`.
`nowMs` and the stored date are epoch milliseconds; JS `Math.floor` of a
quotient of integers is flooring division (`Int.fdiv`). -/
def getTimeDifferenceInSeconds (nowMs : Nat) (date : Option Nat) : Int :=
  match date with
  | none => 0
  | some d => Int.fdiv ((nowMs : Int) - (d : Int)) 1000

/-- The element `renderActionButton(person)` evaluates to: an enabled
check-in button (onClick calls `people.checkIn`), a disabled waiting
button carrying the remaining seconds, an enabled check-out button
(onClick calls `people.checkOut`), or the static text
"Check-out realizado". -/
inductive ActionButton where
  | checkInButton : String → ActionButton
  | waitingButton : Int → ActionButton
  | checkOutButton : String → ActionButton
  | checkedOutText : ActionButton
deriving DecidableEq, Repr

/-- `renderActionButton(person)` (src/ui/components/EventSelector.jsx):
no check-in yet → check-in button; checked in and not out → waiting
button (disabled) while `secondsSinceCheckIn < 5`, check-out button
afterwards; otherwise the "Check-out realizado" text. -/
def renderActionButton (nowMs : Nat) (person : Person) : ActionButton :=
  let fullName := person.firstName ++ " " ++ person.lastName
  if person.checkInDate = none then
    ActionButton.checkInButton fullName
  else if person.checkOutDate = none then
    let secondsSinceCheckIn := getTimeDifferenceInSeconds nowMs person.checkInDate
    if secondsSinceCheckIn < 5 then
      ActionButton.waitingButton (5 - secondsSinceCheckIn)
    else
      ActionButton.checkOutButton fullName
  else
    ActionButton.checkedOutText

/-- A transition operation applied to the People collection: a
`people.checkIn` or `people.checkOut` call, with the instant at which
its `new Date()` is taken. -/
inductive Op where
  | opCheckIn : String → Nat → Op
  | opCheckOut : String → Nat → Op
deriving DecidableEq, Repr

/-- The instant at which an operation runs. -/
def opTime : Op → Nat
  | Op.opCheckIn _ t => t
  | Op.opCheckOut _ t => t

/-- The collection after one (sequentially executed) method call. -/
def applyOp (store : List Person) : Op → List Person
  | Op.opCheckIn pid t => (checkIn store pid t).2
  | Op.opCheckOut pid t => (checkOut store pid t).2

/-- The collection after a sequence of sequentially executed calls. -/
def runOps (store : List Person) : List Op → List Person
  | [] => store
  | op :: rest => runOps (applyOp store op) rest

/-- Wall-clock monotonicity: the operations' `new Date()` instants are
nondecreasing and start no earlier than `c`. -/
def chrono (c : Nat) : List Op → Prop
  | [] => True
  | op :: rest => c ≤ opTime op ∧ chrono (opTime op) rest

/-- The spec's ordering invariant on one record: `checkOutDate != null`
implies `checkInDate != null` and `checkOutDate >= checkInDate`. -/
def ordInv (p : Person) : Prop :=
  ∀ t, p.checkOutDate = some t → ∃ s, p.checkInDate = some s ∧ s ≤ t

/-- Both date fields of a record are instants no later than `c`. -/
def datesBounded (c : Nat) (p : Person) : Prop :=
  (∀ t, p.checkInDate = some t → t ≤ c) ∧
  (∀ t, p.checkOutDate = some t → t ≤ c)

/-- Store-wide invariant at wall-clock instant `c`. -/
def StoreInv (c : Nat) (store : List Person) : Prop :=
  ∀ p ∈ store, ordInv p ∧ datesBounded c p

theorem findOne_nil (pid : String) : findOne [] pid = none := rfl

theorem findOne_cons_pos (q : Person) (rest : List Person) (pid : String)
    (h : q.id = pid) : findOne (q :: rest) pid = some q := by
  simp [findOne, List.find?_cons, h]

theorem findOne_cons_neg (q : Person) (rest : List Person) (pid : String)
    (h : ¬ q.id = pid) : findOne (q :: rest) pid = findOne rest pid := by
  simp [findOne, List.find?_cons, h]

theorem updateById_of_findOne_none (store : List Person) (pid : String)
    (f : Person → Person) (h : findOne store pid = none) :
    updateById store pid f = (store, 0) := by
  induction store with
  | nil => rfl
  | cons q rest ih =>
    by_cases hq : q.id = pid
    · rw [findOne_cons_pos q rest pid hq] at h
      exact absurd h (by simp)
    · rw [findOne_cons_neg q rest pid hq] at h
      simp [updateById, hq, ih h]

theorem updateById_modified_of_pos (store : List Person) (pid : String)
    (f : Person → Person) (h : (updateById store pid f).2 ≠ 0) :
    ∃ q, findOne store pid = some q ∧ f q ≠ q := by
  induction store with
  | nil => exact absurd rfl h
  | cons q rest ih =>
    by_cases hq : q.id = pid
    · refine ⟨q, findOne_cons_pos q rest pid hq, ?_⟩
      intro hfq
      apply h
      simp [updateById, hq, hfq]
    · rw [findOne_cons_neg q rest pid hq]
      apply ih
      intro h0
      apply h
      simp [updateById, hq, h0]

theorem findOne_updateById (store : List Person) (pid : String)
    (f : Person → Person) (q : Person) (hq : findOne store pid = some q)
    (hid : ∀ p, (f p).id = p.id) :
    findOne (updateById store pid f).1 pid = some (f q) := by
  induction store with
  | nil => exact absurd hq (by simp [findOne_nil])
  | cons r rest ih =>
    by_cases hr : r.id = pid
    · rw [findOne_cons_pos r rest pid hr] at hq
      cases hq
      simp only [updateById, if_pos hr]
      exact findOne_cons_pos (f q) rest pid (by rw [hid]; exact hr)
    · rw [findOne_cons_neg r rest pid hr] at hq
      simp only [updateById, if_neg hr]
      rw [findOne_cons_neg r _ pid hr]
      exact ih hq

theorem mem_updateById (store : List Person) (pid : String)
    (f : Person → Person) (p : Person) (h : p ∈ (updateById store pid f).1) :
    p ∈ store ∨ ∃ q, findOne store pid = some q ∧ p = f q := by
  induction store with
  | nil => exact absurd h (by simp [updateById])
  | cons r rest ih =>
    by_cases hr : r.id = pid
    · simp only [updateById, if_pos hr] at h
      rcases List.mem_cons.mp h with h1 | h1
      · exact Or.inr ⟨r, findOne_cons_pos r rest pid hr, h1⟩
      · exact Or.inl (List.mem_cons_of_mem r h1)
    · simp only [updateById, if_neg hr] at h
      rcases List.mem_cons.mp h with h1 | h1
      · exact Or.inl (h1 ▸ List.mem_cons_self r rest)
      · rcases ih h1 with h2 | ⟨q, hq1, hq2⟩
        · exact Or.inl (List.mem_cons_of_mem r h2)
        · exact Or.inr ⟨q, by rw [findOne_cons_neg r rest pid hr]; exact hq1, hq2⟩

theorem findOne_mem (store : List Person) (pid : String) (q : Person)
    (h : findOne store pid = some q) : q ∈ store :=
  List.mem_of_find?_eq_some h

theorem checkOutPre_none_iff (store : List Person) (pid : String) :
    checkOutPre store pid = none ↔
      ∃ q, findOne store pid = some q ∧
        q.checkInDate ≠ none ∧ q.checkOutDate = none := by
  unfold checkOutPre
  cases h : findOne store pid with
  | none => simp
  | some q =>
    by_cases h1 : q.checkInDate = none
    · simp [h1]
    · by_cases h2 : q.checkOutDate = none
      · simp [h1, h2]
      · simp [h1, h2]

/-- Ana: registered in community C1, not arrived (both dates null). -/
def anaP1 : Person := ⟨"P1", "C1", "Ana", "Lee", none, none⟩

/-- Ben: registered in community C1, present (checked in at 10, not out). -/
def benP2 : Person := ⟨"P2", "C1", "Ben", "Kim", some 10, none⟩

/-- Cara: registered in community C2, departed (in at 10, out at 20). -/
def caraP3 : Person := ⟨"P3", "C2", "Cara", "Roy", some 10, some 20⟩

/-- A sample People collection. -/
def demoStore : List Person := [anaP1, benP2, caraP3]

/-- C1: the claim requires `checkOut`'s store write to be conditional on
`checkInDate != null AND checkOutDate == null` holding at the instant of
the write, with a zero-update result surfacing `ConcurrencyConflict`. The
code's write (`checkOutWrite`) selects on `_id` alone: applied to a store
holding Cara, already checked out (`checkOutDate = some 20`, so the
required predicate is false), it still reports 1 modified document and
overwrites `checkOutDate` with the new instant — the write takes effect
although the predicate fails, and the method has no `ConcurrencyConflict`
outcome (its zero-update branch raises `update-failed`). -/
theorem c1_checkOut_write_unconditional :
    (checkOutWrite [caraP3] "P3" 30).2 = 1 ∧
    findOne (checkOutWrite [caraP3] "P3" 30).1 "P3" =
      some ⟨"P3", "C2", "Cara", "Roy", some 10, some 30⟩ := by
  constructor
  · rfl
  · rfl

/-- C2: two concurrent `checkOut("P2")` calls on Ben (present: checked in
at 10, not out), interleaved as pre-check₁, pre-check₂, write₁ (instant
20), write₂ (instant 21) — the interleaving the `await` points of
`people.checkOut` permit. Both pre-checks pass against the same snapshot,
both writes report 1 modified document, so both calls take the success
branch, and the stored record ends with the second call's timestamp
having overwritten the first: two successes and two checkout writes,
not exactly one success with the loser failing
`ConcurrencyConflict`/`InvalidState`. -/
theorem c2_concurrent_checkOut_double_success :
    checkOutPre [benP2] "P2" = none ∧
    (checkOutWrite [benP2] "P2" 20).2 = 1 ∧
    (checkOutWrite (checkOutWrite [benP2] "P2" 20).1 "P2" 21).2 = 1 ∧
    findOne (checkOutWrite (checkOutWrite [benP2] "P2" 20).1 "P2" 21).1 "P2" =
      some ⟨"P2", "C1", "Ben", "Kim", some 10, some 21⟩ := by
  refine ⟨rfl, rfl, rfl, rfl⟩

/-- C3: for every non-blank `personId` with no record in the store,
`checkIn` raises `person-not-found` (the code's `NotFound` failure: the
`_id`-keyed update matches nothing, `modifiedCount` is 0, and the method
throws instead of reporting success) and leaves the store unchanged. -/
theorem c3_checkIn_absent_notFound (store : List Person) (pid : String)
    (now : Nat) (hvalid : isBlank pid = false) (habsent : findOne store pid = none) :
    (checkIn store pid now).1 = Except.error ⟨"person-not-found",
      "Pessoa não encontrada ou já com check-in realizado."⟩ ∧
    (checkIn store pid now).2 = store := by
  have hupd := updateById_of_findOne_none store pid (setCheckIn now) habsent
  simp [checkIn, hvalid, hupd]

theorem c3_checkIn_absent_notFound_witness :
    (checkIn demoStore "P9" 50).1 = Except.error ⟨"person-not-found",
      "Pessoa não encontrada ou já com check-in realizado."⟩ ∧
    (checkIn demoStore "P9" 50).2 = demoStore :=
  c3_checkIn_absent_notFound demoStore "P9" 50 (by decide) (by decide)

theorem checkIn_ok_parts (store : List Person) (pid : String) (now : Nat)
    (r : JsObj) (hok : (checkIn store pid now).1 = Except.ok r) :
    isBlank pid = false ∧ (updateById store pid (setCheckIn now)).2 ≠ 0 ∧
    (checkIn store pid now).2 = (updateById store pid (setCheckIn now)).1 ∧
    r = [("success", JsVal.vBool true),
         ("message", JsVal.vStr "Check-in realizado com sucesso!")] := by
  by_cases hb : isBlank pid = true
  · simp [checkIn, hb] at hok
  · rw [Bool.not_eq_true] at hb
    by_cases hm : (updateById store pid (setCheckIn now)).2 = 0
    · simp [checkIn, hb, hm] at hok
    · simp only [checkIn, hb, Bool.false_eq_true, if_false, hm, if_neg hm,
        Except.ok.injEq] at hok
      exact ⟨hb, hm, by simp [checkIn, hb, hm], hok.symm⟩

theorem checkOut_ok_parts (store : List Person) (pid : String) (now : Nat)
    (r : JsObj) (hok : (checkOut store pid now).1 = Except.ok r) :
    isBlank pid = false ∧ checkOutPre store pid = none ∧
    (checkOutWrite store pid now).2 ≠ 0 ∧
    (checkOut store pid now).2 = (checkOutWrite store pid now).1 ∧
    r = [("success", JsVal.vBool true),
         ("message", JsVal.vStr "Check-out realizado com sucesso!")] := by
  by_cases hb : isBlank pid = true
  · simp [checkOut, hb] at hok
  · rw [Bool.not_eq_true] at hb
    cases hpre : checkOutPre store pid with
    | some e => simp [checkOut, hb, hpre] at hok
    | none =>
      by_cases hm : (checkOutWrite store pid now).2 = 0
      · simp [checkOut, hb, hpre, hm] at hok
      · simp only [checkOut, hb, Bool.false_eq_true, if_false, hpre, hm,
          if_neg hm, Except.ok.injEq] at hok
        exact ⟨hb, rfl, hm, by simp [checkOut, hb, hpre, hm], hok.symm⟩

/-- C4: for every non-blank `personId`, `checkOut` raises
`person-not-found` (the `NotFound` failure) when no record exists,
`invalid-operation` (the `InvalidState` not-checked-in failure) when the
record's `checkInDate` is null, and `already-checked-out` (the
`InvalidState` already-checked-out failure) when the record has checked
in and its `checkOutDate` is non-null — the checks run in that order, as
the spec lists them; and a second sequential `checkOut` after a
successful one raises `already-checked-out`. -/
theorem c4_checkOut_state_errors (store : List Person) (pid : String)
    (now : Nat) (hvalid : isBlank pid = false) :
    (findOne store pid = none →
      (checkOut store pid now).1 =
        Except.error ⟨"person-not-found", "Pessoa não encontrada."⟩) ∧
    (∀ p, findOne store pid = some p → p.checkInDate = none →
      (checkOut store pid now).1 = Except.error ⟨"invalid-operation",
        "Não é possível fazer check-out sem ter feito check-in primeiro."⟩) ∧
    (∀ p, findOne store pid = some p → p.checkInDate ≠ none →
        p.checkOutDate ≠ none →
      (checkOut store pid now).1 =
        Except.error ⟨"already-checked-out", "Esta pessoa já fez check-out."⟩) ∧
    (∀ r t2, (checkOut store pid now).1 = Except.ok r →
      (checkOut (checkOut store pid now).2 pid t2).1 =
        Except.error ⟨"already-checked-out", "Esta pessoa já fez check-out."⟩) := by
  refine ⟨?_, ?_, ?_, ?_⟩
  · intro h
    simp [checkOut, hvalid, checkOutPre, h]
  · intro p hp h1
    simp [checkOut, hvalid, checkOutPre, hp, h1]
  · intro p hp h1 h2
    simp [checkOut, hvalid, checkOutPre, hp, h1, h2]
  · intro r t2 hok
    obtain ⟨-, hpre, hm, hsnd, -⟩ := checkOut_ok_parts store pid now r hok
    obtain ⟨q, hq, hci, hco⟩ := (checkOutPre_none_iff store pid).mp hpre
    have hfind : findOne (checkOut store pid now).2 pid =
        some { q with checkOutDate := some now } := by
      rw [hsnd]
      exact findOne_updateById store pid _ q hq (fun p => rfl)
    revert hfind
    generalize (checkOut store pid now).2 = s2
    intro hfind
    simp [checkOut, hvalid, checkOutPre, hfind, hci]

theorem c4_checkOut_state_errors_witness :
    ((checkOut [benP2] "P9" 15).1 =
      Except.error ⟨"person-not-found", "Pessoa não encontrada."⟩) ∧
    ((checkOut [anaP1] "P1" 15).1 = Except.error ⟨"invalid-operation",
      "Não é possível fazer check-out sem ter feito check-in primeiro."⟩) ∧
    ((checkOut [caraP3] "P3" 25).1 =
      Except.error ⟨"already-checked-out", "Esta pessoa já fez check-out."⟩) ∧
    ((checkOut (checkOut [benP2] "P2" 15).2 "P2" 16).1 =
      Except.error ⟨"already-checked-out", "Esta pessoa já fez check-out."⟩) :=
  ⟨(c4_checkOut_state_errors [benP2] "P9" 15 (by decide)).1 (by decide),
   (c4_checkOut_state_errors [anaP1] "P1" 15 (by decide)).2.1 anaP1 (by decide)
     (by decide),
   (c4_checkOut_state_errors [caraP3] "P3" 25 (by decide)).2.2.1 caraP3
     (by decide) (by decide) (by decide),
   (c4_checkOut_state_errors [benP2] "P2" 15 (by decide)).2.2.2
     [("success", JsVal.vBool true),
      ("message", JsVal.vStr "Check-out realizado com sucesso!")] 16 rfl⟩

/-- C5: whenever `checkIn` succeeds on a record that exists in the store
(found as `q`), the stored record afterwards is `q` overwritten with
`checkInDate = now` and `checkOutDate = null` — so it satisfies
`checkInDate != null && checkOutDate == null`, and the overwrite happens
whatever `q`'s prior state was (already present or already departed),
the update being keyed on `_id` alone. -/
theorem c5_checkIn_success_state (store : List Person) (pid : String)
    (now : Nat) (r : JsObj) (q : Person)
    (hok : (checkIn store pid now).1 = Except.ok r)
    (hq : findOne store pid = some q) :
    findOne (checkIn store pid now).2 pid = some (setCheckIn now q) ∧
    (setCheckIn now q).checkInDate = some now ∧
    (setCheckIn now q).checkOutDate = none := by
  obtain ⟨-, -, hsnd, -⟩ := checkIn_ok_parts store pid now r hok
  refine ⟨?_, rfl, rfl⟩
  rw [hsnd]
  exact findOne_updateById store pid (setCheckIn now) q hq (fun p => rfl)

theorem c5_checkIn_success_state_witness :
    findOne (checkIn [caraP3] "P3" 50).2 "P3" = some (setCheckIn 50 caraP3) ∧
    (setCheckIn 50 caraP3).checkInDate = some 50 ∧
    (setCheckIn 50 caraP3).checkOutDate = none :=
  c5_checkIn_success_state [caraP3] "P3" 50
    [("success", JsVal.vBool true),
     ("message", JsVal.vStr "Check-in realizado com sucesso!")]
    caraP3 rfl (by decide)

/-- C6 counterexample: `checkOut` on Ben (present) succeeds, and the
value the method returns is
`{success: true, message: "Check-out realizado com sucesso!"}` — an
object with no `timestamp` field at all, contradicting the claimed
`{success: true, timestamp}` shape. -/
theorem c6_counterexample :
    (checkOut [benP2] "P2" 20).1 =
      Except.ok [("success", JsVal.vBool true),
                 ("message", JsVal.vStr "Check-out realizado com sucesso!")] ∧
    ([("success", JsVal.vBool true),
      ("message", JsVal.vStr "Check-out realizado com sucesso!")] : JsObj).lookup
        "timestamp" = none :=
  ⟨rfl, rfl⟩

/-- C6 (amended): every successful `checkIn` returns exactly
`{success: true, message: "Check-in realizado com sucesso!"}` and every
successful `checkOut` returns exactly
`{success: true, message: "Check-out realizado com sucesso!"}` — a
success flag with a fixed human-readable message; no transition
timestamp is carried in the result. -/
theorem c6_success_returns_message (store : List Person) (pid : String)
    (now : Nat) (r : JsObj) :
    ((checkIn store pid now).1 = Except.ok r →
      r = [("success", JsVal.vBool true),
           ("message", JsVal.vStr "Check-in realizado com sucesso!")]) ∧
    ((checkOut store pid now).1 = Except.ok r →
      r = [("success", JsVal.vBool true),
           ("message", JsVal.vStr "Check-out realizado com sucesso!")]) :=
  ⟨fun hok => (checkIn_ok_parts store pid now r hok).2.2.2,
   fun hok => (checkOut_ok_parts store pid now r hok).2.2.2.2⟩

theorem c6_success_returns_message_witness :
    ([("success", JsVal.vBool true),
      ("message", JsVal.vStr "Check-in realizado com sucesso!")] : JsObj) =
    [("success", JsVal.vBool true),
     ("message", JsVal.vStr "Check-in realizado com sucesso!")] :=
  (c6_success_returns_message [anaP1] "P1" 50 _).1 rfl

/-- C7: for a missing, `null`, non-string (e.g. `42`), empty or blank
`communityId`, the `people` publication yields the empty, immediately
ready result set whatever the store contains — the guards return before
`People.find` is reached, and no error is raised (the function returns
normally). -/
theorem c7_invalid_filter_yields_empty (store : List Person) :
    peoplePublish store PubArg.missing = [] ∧
    peoplePublish store PubArg.nullv = [] ∧
    peoplePublish store (PubArg.num 42) = [] ∧
    peoplePublish store (PubArg.str "") = [] ∧
    (∀ s, isBlank s = true → peoplePublish store (PubArg.str s) = []) := by
  refine ⟨rfl, rfl, rfl, rfl, ?_⟩
  intro s hs
  by_cases he : s = ""
  · subst he; rfl
  · simp [peoplePublish, pubArgFalsy, he, hs]

theorem c7_invalid_filter_yields_empty_witness :
    peoplePublish demoStore (PubArg.str "   ") = [] :=
  (c7_invalid_filter_yields_empty demoStore).2.2.2.2 "   " (by decide)

/-- C8: for every non-blank string `communityId`, a record is in the
`people` publication's result set exactly when it is in the store and
its `communityId` field equals the given one — so no record of a
different community is ever included. -/
theorem c8_people_filtered_by_community (store : List Person) (s : String)
    (hs : isBlank s = false) (p : Person) :
    p ∈ peoplePublish store (PubArg.str s) ↔ p ∈ store ∧ p.communityId = s := by
  have hne : ¬ s = "" := by
    intro he
    subst he
    simp [isBlank] at hs
  simp [peoplePublish, pubArgFalsy, hne, hs, List.mem_filter]

theorem c8_people_filtered_by_community_witness :
    benP2 ∈ peoplePublish demoStore (PubArg.str "C1") ∧
    caraP3 ∉ peoplePublish demoStore (PubArg.str "C1") := by
  constructor
  · exact (c8_people_filtered_by_community demoStore "C1" (by decide)
      benP2).mpr ⟨by decide, rfl⟩
  · intro hmem
    exact absurd ((c8_people_filtered_by_community demoStore "C1" (by decide)
      caraP3).mp hmem).2 (by decide)

/-- C10: for a present person (`checkInDate = some t`,
`checkOutDate = null`): while fewer than 5 seconds have elapsed since
check-in (`nowMs < t + 5000`), `renderActionButton` yields the disabled
waiting button, so check-out cannot be invoked; once at least 5 seconds
have elapsed (`t + 5000 ≤ nowMs`), it yields the enabled check-out
button whose onClick calls the `people.checkOut` method. -/
theorem c10_present_button_gate (p : Person) (nowMs t : Nat)
    (hci : p.checkInDate = some t) (hco : p.checkOutDate = none) :
    (nowMs < t + 5000 →
      renderActionButton nowMs p =
        ActionButton.waitingButton
          (5 - getTimeDifferenceInSeconds nowMs p.checkInDate)) ∧
    (t + 5000 ≤ nowMs →
      renderActionButton nowMs p =
        ActionButton.checkOutButton (p.firstName ++ " " ++ p.lastName)) := by
  have hne : ¬ p.checkInDate = none := by simp [hci]
  have hsec : getTimeDifferenceInSeconds nowMs p.checkInDate =
      ((nowMs : Int) - (t : Int)) / 1000 := by
    rw [hci]
    exact Int.fdiv_eq_ediv _ (by norm_num)
  constructor
  · intro h
    have hlt : getTimeDifferenceInSeconds nowMs p.checkInDate < 5 := by
      rw [hsec, Int.ediv_lt_iff_lt_mul (by norm_num)]
      omega
    simp [renderActionButton, hne, hco, hlt]
  · intro h
    have hge : ¬ getTimeDifferenceInSeconds nowMs p.checkInDate < 5 := by
      rw [hsec]
      push_neg
      rw [Int.le_ediv_iff_mul_le (by norm_num)]
      omega
    simp [renderActionButton, hne, hco, hge]

theorem c10_present_button_gate_witness :
    renderActionButton 5009 benP2 =
      ActionButton.waitingButton
        (5 - getTimeDifferenceInSeconds 5009 benP2.checkInDate) ∧
    renderActionButton 5010 benP2 =
      ActionButton.checkOutButton (benP2.firstName ++ " " ++ benP2.lastName) :=
  ⟨(c10_present_button_gate benP2 5009 10 rfl rfl).1 (by decide),
   (c10_present_button_gate benP2 5010 10 rfl rfl).2 (by decide)⟩

theorem storeInv_mono (c c' : Nat) (store : List Person) (hcc : c ≤ c')
    (h : StoreInv c store) : StoreInv c' store := by
  intro p hp
  refine ⟨(h p hp).1, ?_, ?_⟩
  · intro t ht
    exact le_trans ((h p hp).2.1 t ht) hcc
  · intro t ht
    exact le_trans ((h p hp).2.2 t ht) hcc

theorem storeInv_checkIn (store : List Person) (c : Nat) (pid : String)
    (now : Nat) (hinv : StoreInv c store) (hc : c ≤ now) :
    StoreInv now (checkIn store pid now).2 := by
  have hmono := storeInv_mono c now store hc hinv
  by_cases hb : isBlank pid = true
  · simpa [checkIn, hb] using hmono
  · rw [Bool.not_eq_true] at hb
    have hsnd : (checkIn store pid now).2 =
        (updateById store pid (setCheckIn now)).1 := by
      by_cases hm : (updateById store pid (setCheckIn now)).2 = 0 <;>
        simp [checkIn, hb, hm]
    rw [hsnd]
    intro p hp
    rcases mem_updateById store pid (setCheckIn now) p hp with h1 | ⟨q, -, h2⟩
    · exact hmono p h1
    · subst h2
      refine ⟨?_, ?_, ?_⟩
      · intro t ht
        simp [setCheckIn] at ht
      · intro t ht
        simp [setCheckIn] at ht
        omega
      · intro t ht
        simp [setCheckIn] at ht

theorem storeInv_checkOut (store : List Person) (c : Nat) (pid : String)
    (now : Nat) (hinv : StoreInv c store) (hc : c ≤ now) :
    StoreInv now (checkOut store pid now).2 := by
  have hmono := storeInv_mono c now store hc hinv
  by_cases hb : isBlank pid = true
  · simpa [checkOut, hb] using hmono
  · rw [Bool.not_eq_true] at hb
    cases hpre : checkOutPre store pid with
    | some e => simpa [checkOut, hb, hpre] using hmono
    | none =>
      obtain ⟨q, hq, hci, hco⟩ := (checkOutPre_none_iff store pid).mp hpre
      have hsnd : (checkOut store pid now).2 = (checkOutWrite store pid now).1 := by
        by_cases hm : (checkOutWrite store pid now).2 = 0 <;>
          simp [checkOut, hb, hpre, hm]
      rw [hsnd]
      intro p hp
      rcases mem_updateById store pid _ p hp with h1 | ⟨q', hq', h2⟩
      · exact hmono p h1
      · rw [hq] at hq'
        injection hq' with hqq
        subst hqq
        subst h2
        cases hqci : q.checkInDate with
        | none => exact absurd hqci hci
        | some s =>
          have hsc : s ≤ c := (hinv q (findOne_mem store pid q hq)).2.1 s hqci
          refine ⟨?_, ?_, ?_⟩
          · intro t ht
            simp at ht
            exact ⟨s, by simp [hqci], by omega⟩
          · intro t ht
            simp [hqci] at ht
            omega
          · intro t ht
            simp at ht
            omega

/-- C9: starting from any store whose records satisfy the ordering
invariant and whose dates lie at or before the wall clock `c`, any
sequence of sequentially executed `checkIn`/`checkOut` calls taken at
nondecreasing wall-clock instants leaves every stored record satisfying
the invariant: `checkOutDate != null` implies `checkInDate != null` and
`checkOutDate >= checkInDate`. -/
theorem c9_ordering_invariant (store : List Person) (c : Nat) (ops : List Op)
    (hinv : StoreInv c store) (hchrono : chrono c ops) :
    ∀ p ∈ runOps store ops, ordInv p := by
  induction ops generalizing store c with
  | nil =>
    intro p hp
    exact (hinv p hp).1
  | cons op rest ih =>
    obtain ⟨h1, h2⟩ := hchrono
    cases op with
    | opCheckIn pid t =>
      exact ih (applyOp store (Op.opCheckIn pid t)) t
        (storeInv_checkIn store c pid t hinv h1) h2
    | opCheckOut pid t =>
      exact ih (applyOp store (Op.opCheckOut pid t)) t
        (storeInv_checkOut store c pid t hinv h1) h2

theorem c9_ordering_invariant_witness :
    ordInv ⟨"P1", "C1", "Ana", "Lee", some 10, some 20⟩ :=
  c9_ordering_invariant [anaP1] 0
    [Op.opCheckIn "P1" 10, Op.opCheckOut "P1" 20]
    (by
      intro p hp
      rw [List.mem_singleton] at hp
      subst hp
      exact ⟨fun t ht => by simp [anaP1] at ht,
             fun t ht => by simp [anaP1] at ht,
             fun t ht => by simp [anaP1] at ht⟩)
    ⟨by decide, by decide, trivial⟩
    ⟨"P1", "C1", "Ana", "Lee", some 10, some 20⟩ (by decide)
